import Mathlib

/-!
Verification development for the conan-py-build packaging backend
(src/conan_py_build/build.py), a PEP 517 build backend that produces a
source archive (sdist) and a binary archive (wheel) from one project.

The embedding is shallow:
- Python `pathlib` paths are lists of path segments (`List String`); path
  strings are split on the separator by a character-level splitter so that
  every definition evaluates inside the kernel.
- the Python `ast` shapes inspected by `_read_version_from_file` are the
  inductive types `PyExpr` / `PyStmt`; reading and parsing a file is
  abstracted as a map from resolved path segments to `ReadResult`, which
  distinguishes a parsed module body, the caught `OSError` and
  `SyntaxError`, and the uncaught `UnicodeDecodeError` that
  `path.read_text` raises on undecodable bytes (a `ValueError`, not
  covered by the except clause at build.py line 83).
- the `[project]` table of pyproject.toml is the structure
  `ProjectMetadata`, keeping the fields the source code reads (`name`,
  `version`, `dynamic`, `license-files`) and an opaque `rest` component for
  all fields that are only copied around unchanged.
- fallible Python code (raise / RuntimeError) returns `Except String`.
- `StandardMetadata` from the external pyproject-metadata library is not
  code of this repository; the pipelines take the rendering function as an
  explicit parameter, and where a claim depends on its license-file
  expansion that part is modelled from the spec (see
  `specLicenseResolver`).
-/

/-! ## Character-level string utilities

Kernel-computable stand-ins for the Python string operations the source
uses (`split`, `startswith`, `endswith`, `strip`, `in`, slicing). -/

/-- Split a path string on the separator, dropping empty segments.
Models `pathlib` parsing of `"a/b"` into parts (a `".."` segment is kept,
as in Python). -/
def splitPathAux (cur : List Char) : List Char → List String
  | [] => if cur.isEmpty then [] else [String.mk cur.reverse]
  | c :: cs =>
    if c = '/' then
      if cur.isEmpty then splitPathAux [] cs
      else String.mk cur.reverse :: splitPathAux [] cs
    else splitPathAux (c :: cur) cs

/-- Split a path string into its segments. -/
def splitPath (s : String) : List String := splitPathAux [] s.toList

/-- Join path segments with forward slashes (models `PurePath.as_posix`). -/
def joinPath : List String → String
  | [] => ""
  | [s] => s
  | s :: rest => s ++ "/" ++ joinPath rest

/-- Split a string on a single character, keeping empty pieces
(models Python `str.split(sep)` with a one-character separator). -/
def splitCharAux (sep : Char) (cur : List Char) : List Char → List String
  | [] => [String.mk cur.reverse]
  | c :: cs =>
    if c = sep then String.mk cur.reverse :: splitCharAux sep [] cs
    else splitCharAux sep (c :: cur) cs

/-- Split a string on a single separator character. -/
def splitChar (sep : Char) (s : String) : List String := splitCharAux sep [] s.toList

/-- Test whether a string starts with the prefix string
(models Python `str.startswith`). -/
def strStartsWith (s pre : String) : Bool := pre.toList.isPrefixOf s.toList

/-- Test whether a string ends with the suffix string
(models Python `str.endswith`). -/
def strEndsWith (s suf : String) : Bool := suf.toList.reverse.isPrefixOf s.toList.reverse

/-- Whitespace predicate used by the model of Python `str.strip`. -/
def isWS (c : Char) : Bool := c = ' ' || c = '\t' || c = '\n' || c = '\r'

/-- Strip leading and trailing whitespace (models Python `str.strip()`). -/
def strTrim (s : String) : String :=
  String.mk (((s.toList.dropWhile isWS).reverse.dropWhile isWS).reverse)

/-- Drop the first n characters of a string (models Python slicing `s[n:]`). -/
def strDropChars (s : String) (n : Nat) : String := String.mk (s.toList.drop n)

/-- Test whether a string contains a given character
(models Python `c in s`). -/
def strContainsChar (s : String) (c : Char) : Bool := s.toList.contains c

/-- Two consecutive dots somewhere in a character list. -/
def hasDotDotL : List Char → Bool
  | c1 :: c2 :: rest => (c1 = '.' && c2 = '.') || hasDotDotL (c2 :: rest)
  | _ => false

/-- Substring test for `".."` (models the Python expression `".." in p`,
which is plain substring containment, not a path-segment test). -/
def containsDotDot (p : String) : Bool := hasDotDotL p.toList

/-! ## Path resolution

Models `Path.resolve()` on `base / rel`: `.` segments vanish and `..`
segments pop the last component (at the filesystem root, `..` stays put,
as in POSIX). Symbolic links are outside the model. -/

/-- Resolve relative segments against an (already resolved) base path. -/
def resolveSegs (base : List String) : List String → List String
  | [] => base
  | seg :: rest =>
    if seg = "." then resolveSegs base rest
    else if seg = ".." then resolveSegs base.dropLast rest
    else resolveSegs (base ++ [seg]) rest

/-! ## Python AST shapes inspected by the version reader -/

/-- Python expressions, restricted to the shapes `_read_version_from_file`
distinguishes: a bare identifier, a string-literal constant, a constant of
any other type, or anything else. -/
inductive PyExpr where
  | name (id : String)
  | constStr (s : String)
  | constOther
  | otherExpr
deriving DecidableEq, Repr

/-- Python top-level statements, restricted to the shapes
`_read_version_from_file` distinguishes: `ast.Assign` (any number of
targets), `ast.AnnAssign` (optional value), or any other statement. -/
inductive PyStmt where
  | assign (targets : List PyExpr) (value : PyExpr)
  | annAssign (target : PyExpr) (value : Option PyExpr)
  | otherStmt
deriving DecidableEq, Repr

/-- Outcome of `ast.parse(path.read_text(encoding="utf-8"))` for one
file: a parsed module body; an `OSError` from reading or a `SyntaxError`
from parsing (both caught by the source); or a `UnicodeDecodeError` from
decoding the bytes - a `ValueError`, which the except clause
`except (OSError, SyntaxError)` at build.py line 83 does not catch, so it
propagates out of `_read_version_from_file`. -/
inductive ReadResult where
  | readOk (body : List PyStmt)
  | oserror
  | syntaxError
  | unicodeDecodeError
deriving DecidableEq, Repr

/-- Parsed file store: resolved absolute path segments to the outcome of
reading and parsing that file. -/
def PyFS : Type := List String → ReadResult

/-- Target and value extracted by the loop of `_read_version_from_file`:
`ast.Assign` with exactly one target yields that target and the value;
`ast.AnnAssign` with a value yields its target and value; every other
statement is skipped (`continue`). -/
def stmtTargetValue : PyStmt → Option (PyExpr × PyExpr)
  | .assign [t] v => some (t, v)
  | .annAssign t (some v) => some (t, v)
  | _ => none

/-- Statement selected by the loop: a single-target simple assignment or a
valued annotated assignment whose target is the identifier `__version__`. -/
def isVersionCandidate (s : PyStmt) : Bool :=
  match stmtTargetValue s with
  | some (.name i, _) => i = "__version__"
  | _ => false

/-- The value expression of a candidate statement. -/
def candidateValue (s : PyStmt) : Option PyExpr :=
  (stmtTargetValue s).map Prod.snd

/-- Loop body of `_read_version_from_file` over `tree.body`: the first
single-target / annotated assignment targeting `__version__` decides the
result - its string-literal value, else `None`. -/
def readVersionBody : List PyStmt → Option String
  | [] => none
  | s :: rest =>
    match stmtTargetValue s with
    | none => readVersionBody rest
    | some (t, v) =>
      match t with
      | .name i =>
        if i = "__version__" then
          match v with
          | .constStr str => some str
          | _ => none
        else readVersionBody rest
      | _ => readVersionBody rest

/-- Error message carried by the uncaught decode error. -/
def unicodeDecodeMsg : String :=
  "UnicodeDecodeError: utf-8 codec cannot decode byte"

/-- Embedding of `_read_version_from_file` (build.py lines 79-98). The
argument is the outcome of reading and parsing the file: the caught
`OSError` and `SyntaxError` yield `None`, a parsed body is scanned by the
loop, and an undecodable file raises `UnicodeDecodeError` (a
`ValueError`, not caught by the except clause), modelled as an `error`
result. -/
def _read_version_from_file : ReadResult → Except String (Option String)
  | .readOk body => .ok (readVersionBody body)
  | .oserror => .ok none
  | .syntaxError => .ok none
  | .unicodeDecodeError => .error unicodeDecodeMsg

/-! ## Project metadata and tool configuration -/

/-- A TOML value as far as `_get_license_files_patterns` distinguishes
them: a string or anything else. -/
inductive TomlVal where
  | str (s : String)
  | other
deriving DecidableEq, Repr

/-- The `[project] license-files` key: absent, a TOML list, a single
string, or a value of any other type. -/
inductive LicenseFilesField where
  | absent
  | list (items : List TomlVal)
  | strval (s : String)
  | otherVal
deriving DecidableEq, Repr

/-- The `[project]` table of pyproject.toml, keeping the keys the source
reads by name; `rest` stands for all remaining keys, which the code only
copies around unchanged (`dict(metadata)`). -/
structure ProjectMetadata (α : Type) where
  name : Option String
  version : Option String
  dynamic : Option (List String)
  licenseFiles : LicenseFilesField
  rest : α
deriving DecidableEq, Repr

/-- The `[tool.conan-py-build]` keys used by version resolution. -/
structure ToolConfig where
  versionFile : Option String
deriving DecidableEq, Repr

/-- Python truthiness of an optional string (`None` and `""` are falsy). -/
def pyTruthyStr : Option String → Bool
  | none => false
  | some s => s ≠ ""

/-- Whether `dynamic` is a list containing `"version"`
(`isinstance(dynamic, list) and "version" in dynamic`). -/
def version_is_dynamic (md : ProjectMetadata α) : Bool :=
  match md.dynamic with
  | some l => l.contains "version"
  | none => false

/-- The resolved location of the configured version file:
`(source_dir / version_file).resolve()`. An absolute `version_file`
replaces the base, as with `pathlib`. -/
def resolvedVersionFilePath (root : List String) (vf : String) : List String :=
  if strStartsWith vf "/" then resolveSegs [] (splitPath vf)
  else resolveSegs root (splitPath vf)

/-- Embedding of `_get_version_from_config` (build.py lines 115-128):
no configured version-file (or an empty string, falsy in Python) yields
`none`; a file resolving outside the project root raises; otherwise the
file is read with `_read_version_from_file`, whose own uncaught error
propagates. `root` is the resolved project root. -/
def _get_version_from_config (root : List String) (tool : ToolConfig) (fs : PyFS) :
    Except String (Option String) :=
  match tool.versionFile with
  | none => .ok none
  | some vf =>
    if vf = "" then .ok none
    else
      let resolved := resolvedVersionFilePath root vf
      if root.isPrefixOf resolved then _read_version_from_file (fs resolved)
      else .error ("version-file must be inside project: " ++ vf)

/-- Error message raised when `dynamic` declares `version` but no version
was resolved. -/
def dynamicVersionMsg : String :=
  "dynamic version could not be resolved. Set version-file to a file with a module level __version__."

/-- Embedding of `_resolve_version` (build.py lines 131-146). Returns the
resolved version together with the updated metadata (the source mutates
`project_metadata` in place, setting the `version` key). -/
def _resolve_version (md : ProjectMetadata α) (root : List String) (tool : ToolConfig)
    (fs : PyFS) : Except String (String × ProjectMetadata α) :=
  if pyTruthyStr md.version then
    let v := md.version.getD ""
    .ok (v, { md with version := some v })
  else
    match _get_version_from_config root tool fs with
    | .error e => .error e
    | .ok v1 =>
      if version_is_dynamic md && !(pyTruthyStr v1) then
        .error dynamicVersionMsg
      else
        let v := if pyTruthyStr v1 then v1.getD "" else "0.0.0"
        .ok (v, { md with version := some v })

/-! ## License-file patterns -/

/-- Embedding of `_get_license_files_patterns` (build.py lines 259-268):
an absent key gives `[]`; a list keeps only its strings; a bare string
becomes a one-element list; any other value gives `[]`. -/
def _get_license_files_patterns : LicenseFilesField → List String
  | .absent => []
  | .list items => items.filterMap fun v => match v with | .str s => some s | .other => none
  | .strval s => [s]
  | .otherVal => []

/-- Error message of `_validate_license_files_patterns`. -/
def invalidLicensePatternMsg : String :=
  "PEP 639: license-files patterns must be relative paths and must not contain dot-dot"

/-- Embedding of `_validate_license_files_patterns` (build.py lines
217-224): raises when a pattern contains `".."` as a substring. The
source also tests `not isinstance(p, str)`, which is vacuous here because
`_get_license_files_patterns` already keeps only strings; no other check
(in particular, no absolute-path check) is performed. -/
def _validate_license_files_patterns (lf : LicenseFilesField) : Except String Unit :=
  if (_get_license_files_patterns lf).any containsDotDot then
    .error invalidLicensePatternMsg
  else .ok ()

/-- Spec-side predicate, following the words of the spec: a pattern is a
root-relative path (it does not start at the filesystem root). Used only
to compare the code with the claim. -/
def specRootRelative (p : String) : Bool := !(strStartsWith p "/")

/-- Spec-side predicate, following the words of the spec: a pattern
contains a parent-directory segment (a whole `".."` path component). Used
only to compare the code with the claim. -/
def specHasParentSeg (p : String) : Bool := (splitPath p).contains ".."

/-- Embedding of `_parse_license_file_paths_from_metadata_text` (build.py
lines 201-214): collect, in order, the comma-separated values of every
`License-File:` line of the metadata text. -/
def _parse_license_file_paths_from_metadata_text (text : String) : List String :=
  (splitChar '\n' text).flatMap fun line =>
    if strStartsWith line "License-File:" then
      (splitChar ',' (strDropChars line 13)).filterMap fun part =>
        let p := strTrim part
        if p = "" then none else some p
    else []

/-! ## Core metadata rendering

The actual rendering is done by `StandardMetadata` from the external
pyproject-metadata library; the pipelines below take it as an explicit
parameter `render` (metadata and project root to either a metadata text or
a configuration error). The repository-owned wrapper
`_get_core_metadata_rfc822` only removes `"version"` from `dynamic` before
rendering. -/

/-- Embedding of `_get_core_metadata_rfc822` (build.py lines 185-198):
copy the metadata, drop `"version"` from a `dynamic` list that contains
it, and hand the result to the renderer. -/
def _get_core_metadata_rfc822 (render : ProjectMetadata α → List String → Except String String)
    (metadata : ProjectMetadata α) (project_dir : List String) : Except String String :=
  let project :=
    match metadata.dynamic with
    | some l =>
      if l.contains "version" then
        { metadata with dynamic := some (l.filter fun f => f ≠ "version") }
      else metadata
    | none => metadata
  render project project_dir

/-- Error message of the no-matching-license-files guard (build.py lines
284-288 and 527-531, same text in both hooks). -/
def noLicenseMatchMsg : String :=
  "PEP 639: license-files patterns matched no files. Every pattern must match at least one file under the project root."

/-- The metadata text computed by `build_sdist` (build.py lines 489-532)
up to the point where `pkg_info_content` is final: resolve the version
(mutating the metadata), rebuild `sdist_md` with the defaulted name and
the resolved version, render, then run the empty-match guard (line 527)
and the pattern validation (line 532) in source order. An `error` result
models the hook raising before any archive file is opened. -/
def sdistMetadataText (render : ProjectMetadata α → List String → Except String String)
    (md0 : ProjectMetadata α) (root : List String) (tool : ToolConfig) (fs : PyFS) :
    Except String String :=
  match _resolve_version md0 root tool fs with
  | .error e => .error e
  | .ok (v, md1) =>
    let name := md1.name.getD "unknown"
    let sdistMd := { md1 with name := some name, version := some v }
    match _get_core_metadata_rfc822 render sdistMd root with
    | .error e => .error e
    | .ok content =>
      let licensePaths := _parse_license_file_paths_from_metadata_text content
      if !(_get_license_files_patterns md1.licenseFiles).isEmpty && licensePaths.isEmpty then
        .error noLicenseMatchMsg
      else
        match _validate_license_files_patterns md1.licenseFiles with
        | .error e => .error e
        | .ok _ => .ok content

/-- The metadata text written as `METADATA` by `build_wheel` via
`_create_dist_info` (build.py lines 271-294, reached from line 449):
resolve the version (mutating the metadata), validate the patterns (line
280), render the mutated metadata itself (line 281), then run the
empty-match guard (line 284). Copying the license files into the
dist-info directory happens after the text is final and is outside this
model. -/
def wheelMetadataText (render : ProjectMetadata α → List String → Except String String)
    (md0 : ProjectMetadata α) (root : List String) (tool : ToolConfig) (fs : PyFS) :
    Except String String :=
  match _resolve_version md0 root tool fs with
  | .error e => .error e
  | .ok (_, md1) =>
    match _validate_license_files_patterns md1.licenseFiles with
    | .error e => .error e
    | .ok _ =>
      match _get_core_metadata_rfc822 render md1 root with
      | .error e => .error e
      | .ok content =>
        let licensePaths := _parse_license_file_paths_from_metadata_text content
        if !(_get_license_files_patterns md1.licenseFiles).isEmpty && licensePaths.isEmpty then
          .error noLicenseMatchMsg
        else .ok content

/-! ## The sdist manifest builder -/

/-- Filesystem snapshot for the sdist manifest: the files and directories
under the project root, as root-relative segment paths, and the glob
oracle `globA` giving, for a glob include pattern, the root-relative paths
of its matches in filesystem order (the resolve and relative-to steps of
build.py lines 561-567 are pre-applied; matches escaping the root are
dropped there and do not appear). -/
structure FS where
  files : List (List String)
  dirs : List (List String)
  globA : String → List (List String)

/-- Embedding of the nested `should_exclude` (build.py lines 536-549) on
the root-relative path of a candidate: a pattern starting with `*` matches
when the file name ends with the remainder; any other pattern matches by
equality with the file name or with any path segment. -/
def should_exclude (exclude_patterns : List String) (rel : List String) : Bool :=
  let nm := (rel.getLast?).getD ""
  exclude_patterns.any fun pattern =>
    if strStartsWith pattern "*" then strEndsWith nm (strDropChars pattern 1)
    else nm = pattern || rel.contains pattern

/-- The built-in include rules of `build_sdist` (build.py lines 499-509). -/
def default_include : List String :=
  ["pyproject.toml", "CMakeLists.txt", "conanfile.py", "cmake", "src",
   "include", "README.md", "README.rst", "LICENSE"]

/-- The built-in exclude rules of `build_sdist` (build.py lines 510-520). -/
def default_exclude : List String :=
  ["__pycache__", "*.pyc", "*.pyo", ".git", ".gitignore", "build", "dist",
   "*.egg-info", ".eggs"]

/-- Whether an include pattern is treated as a glob
(`"*" in pattern or "?" in pattern`, build.py line 559). -/
def isGlobPattern (p : String) : Bool := strContainsChar p '*' || strContainsChar p '?'

/-- The candidate (archive path, source path) pairs one include rule
produces, before deduplication (build.py lines 556-590): a glob pattern
yields its oracle matches that are files and not excluded; a literal
existing file yields itself with no exclusion check; a literal existing
directory yields every file below it that is not excluded; anything else
yields nothing. -/
def ruleCandidates (fs : FS) (excl : List String) (sdist_name : String) (pattern : String) :
    List (String × List String) :=
  if isGlobPattern pattern then
    (fs.globA pattern).filterMap fun p =>
      if fs.files.contains p then
        if should_exclude excl p then none
        else some (sdist_name ++ "/" ++ joinPath p, p)
      else none
  else
    let segs := splitPath pattern
    if fs.files.contains segs then
      [(sdist_name ++ "/" ++ joinPath segs, segs)]
    else if fs.dirs.contains segs then
      (fs.files.filter fun f => segs.isPrefixOf f).filterMap fun f =>
        if should_exclude excl f then none
        else some (sdist_name ++ "/" ++ joinPath f, f)
    else []

/-- Deduplication step shared by every branch of the include loop: add the
candidates in order, skipping any whose archive path is already in the
`added_arcnames` set, and return the added entries with the grown set. -/
def addEntries : List (String × List String) → List String →
    List (String × List String) × List String
  | [], seen => ([], seen)
  | (a, p) :: rest, seen =>
    if seen.contains a then addEntries rest seen
    else
      let r := addEntries rest (a :: seen)
      ((a, p) :: r.1, r.2)

/-- The include loop of `build_sdist` (build.py lines 553-590): process
the include rules in order, threading the `added_arcnames` set across
rules, and return the manifest entries with the final set. -/
def sdistLoop (fs : FS) (excl : List String) (sdist_name : String) :
    List String → List String → List (String × List String) × List String
  | [], seen => ([], seen)
  | pat :: pats, seen =>
    let step := addEntries (ruleCandidates fs excl sdist_name pat) seen
    let rest := sdistLoop fs excl sdist_name pats step.2
    (step.1 ++ rest.1, rest.2)

/-- The manifest of the include loop: ordered (archive path, source path)
pairs added to the tar by the rules, starting from an empty
`added_arcnames` set. -/
def sdist_include_entries (fs : FS) (excl : List String) (sdist_name : String)
    (includes : List String) : List (String × List String) :=
  (sdistLoop fs excl sdist_name includes []).1

/-- First candidate pair carrying a given archive path. -/
def firstEntryFor (a : String) : List (String × List String) → Option (String × List String)
  | [] => none
  | c :: rest => if c.1 = a then some c else firstEntryFor a rest

/-! ## Spec-modelled license-file expansion

`StandardMetadata` (external pyproject-metadata) performs the license-file
pattern expansion whose License-File lines the repository parses back out
of the rendered text. That code is not under src/, so it is modelled from
the spec here. -/

/-- Deduplicate resolved paths, keeping the first occurrence. -/
def dedupPathsAux (seen : List (List String)) : List (List String) → List (List String)
  | [] => []
  | p :: rest =>
    if seen.contains p then dedupPathsAux seen rest
    else p :: dedupPathsAux (p :: seen) rest

/-- Spec-side NoMatch error message of the License File Resolver. -/
def noMatchResolverMsg : String := "NoMatchingLicenseFiles"

/-- Spec-side InvalidPattern error message of the License File Resolver. -/
def invalidResolverMsg : String := "InvalidLicensePattern"

/-- Modelled from the spec: the License File Resolver of section 4.2,
whose implementation lives in the external pyproject-metadata library and
is not under src/. It fails with InvalidPattern if any pattern is not a
root-relative path or contains a parent-directory segment; it expands
each pattern through the glob oracle and fails with NoMatch as soon as
any declared pattern expands to zero files - per section 3 (zero matches
is a hard error, not a silent no-op) and the parenthetical of section 4.2
(every declared pattern must denote a real file), the behavior the
repository also expects of pyproject-metadata in
test_unit.py lines 229-235; the surviving matches are deduplicated
keeping first-seen order. -/
def specLicenseResolver (expand : String → List (List String)) (patterns : List String) :
    Except String (List (List String)) :=
  if patterns.any (fun p => !(specRootRelative p) || specHasParentSeg p) then
    .error invalidResolverMsg
  else if patterns.any (fun p => (expand p).isEmpty) then
    .error noMatchResolverMsg
  else .ok (dedupPathsAux [] (patterns.flatMap expand))

/-- Modelled from the spec: the Core Metadata Generator of section 4.3 as
implemented by the external StandardMetadata - the core identity fields
(abstracted as the text `coreText`) followed by one `License-File:` line
per resolved license file, in resolver order, with forward-slash paths. -/
def specRenderCoreMetadata (coreText : String) (expand : String → List (List String))
    (md : ProjectMetadata α) (_root : List String) : Except String String :=
  match specLicenseResolver expand (_get_license_files_patterns md.licenseFiles) with
  | .error e => .error e
  | .ok files =>
    .ok (coreText ++ (files.map fun f => "License-File: " ++ joinPath f ++ "\n").foldr (· ++ ·) "")

/-! ## The full build_sdist pipeline -/

/-- Outcome of one `build_sdist` run: an error raised before the archive
file is opened (no archive exists in the output directory), an error
raised while writing (a partial archive file exists), or the built archive
as its manifest entries plus the `PKG-INFO` text appended as the final
synthetic member. -/
inductive SdistOutcome where
  | errBefore (msg : String)
  | errDuring (msg : String)
  | built (entries : List (String × List String)) (pkgInfo : String)
deriving DecidableEq, Repr

/-- The license force-add loop of `build_sdist` (build.py lines 593-602):
each `License-File` path must exist as a file (else the hook raises inside
the archive context), and is added under `sdist_name/<path>` unless that
archive path is already present. -/
def licenseAddLoop (fs : FS) (sdist_name : String) :
    List String → List String → Except String (List (String × List String))
  | [], _ => .ok []
  | rel :: rest, seen =>
    let segs := splitPath rel
    if fs.files.contains segs then
      let arc := sdist_name ++ "/" ++ rel
      if seen.contains arc then licenseAddLoop fs sdist_name rest seen
      else
        match licenseAddLoop fs sdist_name rest (arc :: seen) with
        | .error e => .error e
        | .ok es => .ok ((arc, segs) :: es)
    else .error ("PEP 639: license file not found for sdist: " ++ rel)

/-- Embedding of `build_sdist` (build.py lines 482-610): resolve the
version, render the metadata text, run the empty-match guard and the
pattern validation, build the include manifest with the default rules
prepended to the configured ones, force-add the parsed License-File
paths, and finish with the synthetic `PKG-INFO` member (carried as the
`pkgInfo` component of the outcome). Errors up to the validation step
happen before the archive file is opened; a missing license file raises
during writing. -/
def build_sdist_model (render : ProjectMetadata α → List String → Except String String)
    (md0 : ProjectMetadata α) (root : List String) (tool : ToolConfig) (pfs : PyFS)
    (fs : FS) (cfgInclude cfgExclude : List String) : SdistOutcome :=
  match _resolve_version md0 root tool pfs with
  | .error e => .errBefore e
  | .ok (v, md1) =>
    let name := md1.name.getD "unknown"
    let sdist_name := name ++ "-" ++ v
    match _get_core_metadata_rfc822 render { md1 with name := some name, version := some v } root with
    | .error e => .errBefore e
    | .ok pkg_info_content =>
      let license_paths := _parse_license_file_paths_from_metadata_text pkg_info_content
      if !(_get_license_files_patterns md1.licenseFiles).isEmpty && license_paths.isEmpty then
        .errBefore noLicenseMatchMsg
      else
        match _validate_license_files_patterns md1.licenseFiles with
        | .error e => .errBefore e
        | .ok _ =>
          let include_patterns := default_include ++ cfgInclude
          let exclude_patterns := default_exclude ++ cfgExclude
          let step := sdistLoop fs exclude_patterns sdist_name include_patterns []
          match licenseAddLoop fs sdist_name license_paths step.2 with
          | .error e => .errDuring e
          | .ok licEntries => .built (step.1 ++ licEntries) pkg_info_content

/-! ## Lemmas about the version reader loop -/

/-- A statement that is not a version candidate is skipped by the loop. -/
theorem readVersionBody_skip (s : PyStmt) (rest : List PyStmt)
    (h : isVersionCandidate s = false) :
    readVersionBody (s :: rest) = readVersionBody rest := by
  simp only [isVersionCandidate] at h
  simp only [readVersionBody]
  split
  · rfl
  · rename_i t v heq
    rw [heq] at h
    cases t with
    | name i =>
      simp only [decide_eq_false_iff_not] at h
      simp [h]
    | constStr s => rfl
    | constOther => rfl
    | otherExpr => rfl

/-- A version candidate whose value is a string literal decides the loop
with that string. -/
theorem readVersionBody_hit_str (s : PyStmt) (rest : List PyStmt) (X : String)
    (h : isVersionCandidate s = true) (hv : candidateValue s = some (PyExpr.constStr X)) :
    readVersionBody (s :: rest) = some X := by
  simp only [isVersionCandidate] at h
  simp only [candidateValue] at hv
  simp only [readVersionBody]
  split
  · rename_i heq; rw [heq] at h; exact Bool.noConfusion h
  · rename_i t v heq
    rw [heq] at h hv
    cases t with
    | name i =>
      simp only [decide_eq_true_eq] at h
      have hv2 : v = PyExpr.constStr X := by simpa using hv
      subst hv2
      simp [h]
    | constStr s => exact Bool.noConfusion h
    | constOther => exact Bool.noConfusion h
    | otherExpr => exact Bool.noConfusion h

/-- A version candidate whose value is not a string literal decides the
loop with None, whatever follows. -/
theorem readVersionBody_hit_none (s : PyStmt) (rest : List PyStmt)
    (h : isVersionCandidate s = true)
    (hv : ∀ Y : String, candidateValue s ≠ some (PyExpr.constStr Y)) :
    readVersionBody (s :: rest) = none := by
  simp only [isVersionCandidate] at h
  simp only [candidateValue] at hv
  simp only [readVersionBody]
  split
  · rename_i heq; rw [heq] at h; exact Bool.noConfusion h
  · rename_i t v heq
    rw [heq] at h
    cases t with
    | name i =>
      simp only [decide_eq_true_eq] at h
      cases v with
      | constStr str =>
        exfalso
        exact hv str (by rw [heq]; rfl)
      | name j => simp [h]
      | constOther => simp [h]
      | otherExpr => simp [h]
    | constStr s => exact Bool.noConfusion h
    | constOther => exact Bool.noConfusion h
    | otherExpr => exact Bool.noConfusion h

/-- C2 counterexample: the claim is false as stated. A version-source
file whose bytes cannot be decoded raises `UnicodeDecodeError` out of
`_read_version_from_file` - `path.read_text` raises it inside the try
block, and the except clause at build.py line 83 catches only `OSError`
and `SyntaxError`, not this `ValueError` subclass - so such a file does
not return the unresolved result. -/
theorem C2_counterexample :
    _read_version_from_file ReadResult.unicodeDecodeError = .error unicodeDecodeMsg
    ∧ _read_version_from_file ReadResult.unicodeDecodeError ≠ .ok none :=
  ⟨rfl, fun h => Except.noConfusion h⟩

/-- C2 amended: a decoded and parsed version-source file whose top-level
statements contain exactly one assignment (simple or annotated) targeting
`__version__`, with a string-literal value X, resolves to X; a parsed
file with no string-literal `__version__` assignment of the accepted
shape resolves to None; unreadable (OSError) and syntactically invalid
(SyntaxError) files resolve to None rather than raising; but a file whose
bytes cannot be decoded raises UnicodeDecodeError instead of resolving. -/
theorem C2_amended_read_version_resolution (body : List PyStmt) (s : PyStmt) (X : String) :
    (body.filter isVersionCandidate = [s] →
      candidateValue s = some (PyExpr.constStr X) →
      _read_version_from_file (ReadResult.readOk body) = .ok (some X))
    ∧ ((∀ t ∈ body, isVersionCandidate t = true →
          ∀ Y : String, candidateValue t ≠ some (PyExpr.constStr Y)) →
        _read_version_from_file (ReadResult.readOk body) = .ok none)
    ∧ _read_version_from_file ReadResult.oserror = .ok none
    ∧ _read_version_from_file ReadResult.syntaxError = .ok none
    ∧ (∃ e, _read_version_from_file ReadResult.unicodeDecodeError = .error e) := by
  refine ⟨?_, ?_, rfl, rfl, ⟨unicodeDecodeMsg, rfl⟩⟩
  · intro hf hv
    simp only [_read_version_from_file, Except.ok.injEq]
    induction body with
    | nil => simp at hf
    | cons t rest ih =>
      by_cases hc : isVersionCandidate t = true
      · rw [List.filter_cons_of_pos hc] at hf
        rw [List.cons.injEq] at hf
        rcases hf with ⟨hts, hrest⟩
        subst hts
        exact readVersionBody_hit_str t rest X hc hv
      · rw [List.filter_cons_of_neg hc] at hf
        rw [readVersionBody_skip t rest (Bool.eq_false_iff.mpr hc)]
        exact ih hf
  · intro hall
    simp only [_read_version_from_file, Except.ok.injEq]
    induction body with
    | nil => rfl
    | cons t rest ih =>
      by_cases hc : isVersionCandidate t = true
      · exact readVersionBody_hit_none t rest hc (hall t (by simp) hc)
      · rw [readVersionBody_skip t rest (Bool.eq_false_iff.mpr hc)]
        exact ih fun u hu => hall u (by simp [hu])

/-- Witness for the amended C2 at concrete inputs: a parsed module with
one extra statement and one plain string-literal `__version__` assignment
resolves to that string; a parsed module whose only `__version__`
assignment has an integer value resolves to None. -/
theorem C2_amended_read_version_resolution_witness :
    _read_version_from_file (ReadResult.readOk [PyStmt.otherStmt,
        PyStmt.assign [PyExpr.name "__version__"] (PyExpr.constStr "2.0.0")]) = .ok (some "2.0.0")
    ∧ _read_version_from_file (ReadResult.readOk [PyStmt.assign [PyExpr.name "__version__"]
        PyExpr.constOther]) = .ok none :=
  ⟨(C2_amended_read_version_resolution
      [PyStmt.otherStmt, PyStmt.assign [PyExpr.name "__version__"] (PyExpr.constStr "2.0.0")]
      (PyStmt.assign [PyExpr.name "__version__"] (PyExpr.constStr "2.0.0")) "2.0.0").1
      (by decide) (by decide),
    (C2_amended_read_version_resolution
      [PyStmt.assign [PyExpr.name "__version__"] PyExpr.constOther]
      PyStmt.otherStmt "").2.1
      (by
        intro t ht hc Y hY
        simp only [List.mem_singleton] at ht
        subst ht
        simp [candidateValue, stmtTargetValue] at hY)⟩

/-- C10: parsing is decided by the first top-level assignment of the
accepted shape whose target is `__version__`: a string-literal value is
returned, any other value yields None immediately, and later statements
(including later string-literal `__version__` assignments) are never
consulted. -/
theorem C10_first_version_assignment_decides (before post : List PyStmt) (s : PyStmt)
    (hb : ∀ t ∈ before, isVersionCandidate t = false)
    (hs : isVersionCandidate s = true) :
    (∀ X : String, candidateValue s = some (PyExpr.constStr X) →
      _read_version_from_file (ReadResult.readOk (before ++ s :: post)) = .ok (some X))
    ∧ ((∀ Y : String, candidateValue s ≠ some (PyExpr.constStr Y)) →
      _read_version_from_file (ReadResult.readOk (before ++ s :: post)) = .ok none) := by
  have hskip : readVersionBody (before ++ s :: post) = readVersionBody (s :: post) := by
    induction before with
    | nil => rfl
    | cons t ts ih =>
      rw [List.cons_append, readVersionBody_skip t _ (hb t (by simp))]
      exact ih fun u hu => hb u (by simp [hu])
  constructor
  · intro X hX
    simp only [_read_version_from_file, Except.ok.injEq]
    rw [hskip]
    exact readVersionBody_hit_str s post X hs hX
  · intro hv
    simp only [_read_version_from_file, Except.ok.injEq]
    rw [hskip]
    exact readVersionBody_hit_none s post hs hv

/-- Witness for C10 at a concrete input: the first `__version__`
assignment has a non-literal value, so the result is None even though a
later statement assigns a string literal to `__version__`. -/
theorem C10_first_version_assignment_decides_witness :
    _read_version_from_file (ReadResult.readOk [PyStmt.otherStmt,
      PyStmt.assign [PyExpr.name "__version__"] PyExpr.constOther,
      PyStmt.assign [PyExpr.name "__version__"] (PyExpr.constStr "9.9.9")]) = .ok none :=
  (C10_first_version_assignment_decides [PyStmt.otherStmt]
      [PyStmt.assign [PyExpr.name "__version__"] (PyExpr.constStr "9.9.9")]
      (PyStmt.assign [PyExpr.name "__version__"] PyExpr.constOther)
      (by decide) (by decide)).2
    (by
      intro Y hY
      simp [candidateValue, stmtTargetValue] at hY)

/-! ## Substring characterization of the dot-dot test -/

/-- Containment of two consecutive dots, characterized as a substring
decomposition. -/
theorem hasDotDotL_iff (l : List Char) :
    hasDotDotL l = true ↔ ∃ a b : List Char, l = a ++ '.' :: '.' :: b := by
  induction l with
  | nil =>
    simp only [hasDotDotL]
    constructor
    · intro h; exact Bool.noConfusion h
    · rintro ⟨a, b, h⟩
      have hl := congrArg List.length h
      simp at hl
      omega
  | cons c rest ih =>
    cases rest with
    | nil =>
      simp only [hasDotDotL]
      constructor
      · intro h; exact Bool.noConfusion h
      · rintro ⟨a, b, h⟩
        have hl := congrArg List.length h
        simp at hl
        omega
    | cons c2 rest2 =>
      simp only [hasDotDotL, Bool.or_eq_true, Bool.and_eq_true, decide_eq_true_eq]
      constructor
      · rintro (⟨h1, h2⟩ | h)
        · subst h1; subst h2
          exact ⟨[], rest2, rfl⟩
        · obtain ⟨a, b, hab⟩ := ih.mp h
          exact ⟨c :: a, b, by simp [hab]⟩
      · rintro ⟨a, b, hab⟩
        cases a with
        | nil =>
          simp only [List.nil_append, List.cons.injEq] at hab
          obtain ⟨h1, h2, _⟩ := hab
          exact Or.inl ⟨h1, h2⟩
        | cons x xs =>
          simp only [List.cons_append, List.cons.injEq] at hab
          exact Or.inr (ih.mpr ⟨xs, b, hab.2⟩)

/-- C6 counterexample: the claim is false as stated. The pattern
`a..b.txt` is a root-relative path with no parent-directory segment, yet
validation rejects it; the pattern `/etc/x` is not root-relative, yet
validation accepts it. -/
theorem C6_counterexample :
    _validate_license_files_patterns (LicenseFilesField.list [TomlVal.str "a..b.txt"])
        = .error invalidLicensePatternMsg
    ∧ specRootRelative "a..b.txt" = true
    ∧ specHasParentSeg "a..b.txt" = false
    ∧ _validate_license_files_patterns (LicenseFilesField.list [TomlVal.str "/etc/x"])
        = .ok ()
    ∧ specRootRelative "/etc/x" = false :=
  ⟨rfl, by decide, by decide, rfl, by decide⟩

/-- C6 amended: license-file pattern validation fails exactly when some
declared pattern contains two consecutive dots as a substring (anywhere,
even inside a file name); root-relativity is not checked at all. -/
theorem C6_amended_validation_iff_dotdot_substring (lf : LicenseFilesField) :
    (∃ e, _validate_license_files_patterns lf = .error e)
      ↔ ∃ p ∈ _get_license_files_patterns lf,
          ∃ a b : List Char, p.toList = a ++ '.' :: '.' :: b := by
  simp only [_validate_license_files_patterns]
  by_cases h : (_get_license_files_patterns lf).any containsDotDot = true
  · rw [if_pos h]
    constructor
    · intro _
      rw [List.any_eq_true] at h
      obtain ⟨p, hp, hdd⟩ := h
      exact ⟨p, hp, (hasDotDotL_iff p.toList).mp hdd⟩
    · intro _
      exact ⟨invalidLicensePatternMsg, rfl⟩
  · rw [if_neg h]
    constructor
    · rintro ⟨e, he⟩
      exact Except.noConfusion he
    · rintro ⟨p, hp, hab⟩
      exfalso
      exact h (List.any_eq_true.mpr ⟨p, hp, (hasDotDotL_iff p.toList).mpr hab⟩)

/-- Witness for the amended C6 at a concrete input: a pattern list with a
dot-dot substring is rejected with some error. -/
theorem C6_amended_witness :
    ∃ e, _validate_license_files_patterns
        (LicenseFilesField.list [TomlVal.str "LICENSE", TomlVal.str "doc/../x.txt"]) = .error e :=
  (C6_amended_validation_iff_dotdot_substring
      (LicenseFilesField.list [TomlVal.str "LICENSE", TomlVal.str "doc/../x.txt"])).mpr
    ⟨"doc/../x.txt", by decide, ['d', 'o', 'c', '/'], ['/', 'x', '.', 't', 'x', 't'], by decide⟩

/-! ## Version-source safety (C7) -/

/-- C7 counterexample: the claim is false as stated. The configured
version-source path contains a parent-directory traversal segment, yet
resolution does not raise: the path resolves back inside the project
root and the version is read from the file. -/
theorem C7_counterexample :
    specHasParentSeg "pkg/../pkg/version.py" = true
    ∧ _get_version_from_config ["root"] ⟨some "pkg/../pkg/version.py"⟩
        (fun p => if p = ["root", "pkg", "version.py"]
          then ReadResult.readOk [PyStmt.assign [PyExpr.name "__version__"] (PyExpr.constStr "1.0.0")]
          else ReadResult.oserror)
      = .ok (some "1.0.0") :=
  ⟨by decide, rfl⟩

/-- C7 amended: a configured version-source path whose resolved location
lies outside the project root always fails with a configuration error; a
parent-directory segment alone does not raise when the resolved location
stays inside the root. -/
theorem C7_amended_outside_root_errors (root : List String) (vf : String) (fs : PyFS)
    (hvf : vf ≠ "")
    (hout : root.isPrefixOf (resolvedVersionFilePath root vf) = false) :
    _get_version_from_config root ⟨some vf⟩ fs
      = .error ("version-file must be inside project: " ++ vf) := by
  simp only [_get_version_from_config]
  rw [if_neg hvf]
  simp [hout]

/-- Witness for the amended C7 at a concrete input: a version-source path
escaping the root raises the configuration error. -/
theorem C7_amended_witness :
    _get_version_from_config ["root"] ⟨some "../evil.py"⟩ (fun _ => ReadResult.oserror)
      = .error ("version-file must be inside project: " ++ "../evil.py") :=
  C7_amended_outside_root_errors ["root"] "../evil.py" (fun _ => ReadResult.oserror) (by decide) (by decide)

/-! ## Version fallback and dynamic-version errors (C8, C9) -/

/-- C8 counterexample: the claim is false as stated. With `version`
absent and `dynamic` not declaring version, a configured version-source
file can still supply the version, so resolution returns that version
rather than 0.0.0 (and a version-source path escaping the root would even
raise). -/
theorem C8_counterexample :
    ({ name := some "pkg", version := none, dynamic := none,
       licenseFiles := LicenseFilesField.absent, rest := () } : ProjectMetadata Unit).version = none
    ∧ version_is_dynamic ({ name := some "pkg", version := none, dynamic := none, licenseFiles := LicenseFilesField.absent, rest := () } : ProjectMetadata Unit) = false
    ∧ _resolve_version ({ name := some "pkg", version := none, dynamic := none, licenseFiles := LicenseFilesField.absent, rest := () } : ProjectMetadata Unit)
        ["root"] ⟨some "ver.py"⟩
        (fun p => if p = ["root", "ver.py"]
          then ReadResult.readOk [PyStmt.assign [PyExpr.name "__version__"] (PyExpr.constStr "1.2.3")]
          else ReadResult.oserror)
      = .ok ("1.2.3", { name := some "pkg", version := some "1.2.3", dynamic := none, licenseFiles := LicenseFilesField.absent, rest := () }) :=
  ⟨rfl, rfl, rfl⟩

/-- C8 amended: when `version` is absent, `dynamic` does not declare
version, and the configured version-source lookup succeeds without a
concrete version (in particular when no version-file is configured),
resolution returns 0.0.0 without raising. -/
theorem C8_amended_default_version (md : ProjectMetadata α) (root : List String)
    (tool : ToolConfig) (fs : PyFS)
    (hv : md.version = none)
    (hd : version_is_dynamic md = false)
    (hc : _get_version_from_config root tool fs = .ok none
          ∨ _get_version_from_config root tool fs = .ok (some "")) :
    _resolve_version md root tool fs = .ok ("0.0.0", { md with version := some "0.0.0" }) := by
  simp only [_resolve_version, hv, pyTruthyStr]
  rcases hc with hc | hc <;> rw [hc] <;> simp [hd, pyTruthyStr]

/-- Witness for the amended C8 at a concrete input: no version, not
dynamic, no version-file configured, resolution yields 0.0.0. -/
theorem C8_amended_default_version_witness :
    _resolve_version ({ name := some "pkg", version := none, dynamic := none, licenseFiles := LicenseFilesField.absent, rest := () } : ProjectMetadata Unit)
      ["root"] ⟨none⟩ (fun _ => ReadResult.oserror)
      = .ok ("0.0.0", { name := some "pkg", version := some "0.0.0", dynamic := none, licenseFiles := LicenseFilesField.absent, rest := () }) :=
  C8_amended_default_version
    ({ name := some "pkg", version := none, dynamic := none,
       licenseFiles := LicenseFilesField.absent, rest := () } : ProjectMetadata Unit)
    ["root"] ⟨none⟩ (fun _ => ReadResult.oserror) rfl rfl (Or.inl rfl)

/-- C9: when `dynamic` declares version, the version field is absent, and
the configured version-source lookup succeeds but yields no concrete
version (none, or an empty string, both falsy), resolution raises the
fatal dynamic-version error instead of falling back to a default. -/
theorem C9_dynamic_unresolved_errors (md : ProjectMetadata α) (root : List String)
    (tool : ToolConfig) (fs : PyFS)
    (hv : md.version = none)
    (hd : version_is_dynamic md = true)
    (hc : ∃ r, _get_version_from_config root tool fs = .ok r ∧ pyTruthyStr r = false) :
    _resolve_version md root tool fs = .error dynamicVersionMsg := by
  obtain ⟨r, hr, hrf⟩ := hc
  simp only [_resolve_version, hv, hr, hd]
  cases r with
  | none => simp [pyTruthyStr]
  | some s =>
    have hs : s = "" := by simpa [pyTruthyStr] using hrf
    subst hs
    simp [pyTruthyStr]

/-- Witness for C9 at a concrete input: dynamic declares version, no
version anywhere, resolution raises the fatal error. -/
theorem C9_dynamic_unresolved_errors_witness :
    _resolve_version ({ name := some "pkg", version := none, dynamic := some ["version"], licenseFiles := LicenseFilesField.absent, rest := () } : ProjectMetadata Unit)
      ["root"] ⟨none⟩ (fun _ => ReadResult.oserror) = .error dynamicVersionMsg :=
  C9_dynamic_unresolved_errors
    ({ name := some "pkg", version := none, dynamic := some ["version"],
       licenseFiles := LicenseFilesField.absent, rest := () } : ProjectMetadata Unit)
    ["root"] ⟨none⟩ (fun _ => ReadResult.oserror) rfl rfl ⟨none, rfl, rfl⟩

/-! ## The two artifact metadata texts agree (C1) -/

/-- Successful version resolution only sets the `version` key of the
metadata, leaving every other field unchanged. -/
theorem _resolve_version_ok_shape (md : ProjectMetadata α) (root : List String)
    (tool : ToolConfig) (fs : PyFS) (v : String) (md1 : ProjectMetadata α)
    (h : _resolve_version md root tool fs = .ok (v, md1)) :
    md1 = { md with version := some v } := by
  simp only [_resolve_version] at h
  split at h
  · rw [Except.ok.injEq, Prod.mk.injEq] at h
    obtain ⟨hv, hm⟩ := h
    subst hv
    subst hm
    rfl
  · split at h
    · exact Except.noConfusion h
    · split at h
      · exact Except.noConfusion h
      · rw [Except.ok.injEq, Prod.mk.injEq] at h
        obtain ⟨hv, hm⟩ := h
        subst hv
        subst hm
        rfl

/-- C1: for every renderer, metadata with a declared name, project root,
tool configuration and filesystem, when both hooks succeed, the text
embedded as PKG-INFO by build_sdist and the text written as METADATA by
build_wheel are the same string: both are `_get_core_metadata_rfc822`
applied to the same resolved metadata and root. -/
theorem C1_pkg_info_equals_wheel_metadata {α : Type}
    (render : ProjectMetadata α → List String → Except String String)
    (md0 : ProjectMetadata α) (root : List String) (tool : ToolConfig) (fs : PyFS)
    (n : String) (hname : md0.name = some n) (s t : String)
    (hs : sdistMetadataText render md0 root tool fs = .ok s)
    (ht : wheelMetadataText render md0 root tool fs = .ok t) : s = t := by
  simp only [sdistMetadataText] at hs
  simp only [wheelMetadataText] at ht
  rcases hres : _resolve_version md0 root tool fs with e | p
  · rw [hres] at hs
    exact Except.noConfusion hs
  · obtain ⟨v, md1⟩ := p
    rw [hres] at hs ht
    simp only [] at hs ht
    have hmd1 : md1 = { md0 with version := some v } :=
      _resolve_version_ok_shape md0 root tool fs v md1 hres
    have hkey : { md1 with name := some (md1.name.getD "unknown"), version := some v } = md1 := by
      subst hmd1
      simp [hname]
    rw [hkey] at hs
    rcases hval : _validate_license_files_patterns md1.licenseFiles with e | u
    · rw [hval] at ht
      simp only [] at ht
      exact Except.noConfusion ht
    · obtain ⟨⟩ := u
      rw [hval] at hs ht
      simp only [] at hs ht
      rcases hc : _get_core_metadata_rfc822 render md1 root with e | content
      · rw [hc] at hs
        simp only [] at hs
        exact Except.noConfusion hs
      · rw [hc] at hs ht
        simp only [] at hs ht
        by_cases hg : (!(_get_license_files_patterns md1.licenseFiles).isEmpty
            && (_parse_license_file_paths_from_metadata_text content).isEmpty) = true
        · rw [if_pos hg] at hs
          exact Except.noConfusion hs
        · rw [if_neg hg] at hs ht
          rw [Except.ok.injEq] at hs ht
          rw [← hs, ← ht]

/-- Witness for C1 at a concrete input: a renderer joining name and
version, a metadata table with a declared name and version, both hook
texts computed and equal. -/
theorem C1_pkg_info_equals_wheel_metadata_witness :
    (({ name := some "pkg", version := some "1.0.0", dynamic := none, licenseFiles := LicenseFilesField.absent, rest := () } : ProjectMetadata Unit).name = some "pkg")
    ∧ (sdistMetadataText (fun m _ => .ok ((m.name.getD "?") ++ "|" ++ (m.version.getD "?")))
        ({ name := some "pkg", version := some "1.0.0", dynamic := none, licenseFiles := LicenseFilesField.absent, rest := () } : ProjectMetadata Unit)
        ["root"] ⟨none⟩ (fun _ => ReadResult.oserror) = .ok "pkg|1.0.0")
    ∧ (wheelMetadataText (fun m _ => .ok ((m.name.getD "?") ++ "|" ++ (m.version.getD "?")))
        ({ name := some "pkg", version := some "1.0.0", dynamic := none, licenseFiles := LicenseFilesField.absent, rest := () } : ProjectMetadata Unit)
        ["root"] ⟨none⟩ (fun _ => ReadResult.oserror) = .ok "pkg|1.0.0")
    ∧ "pkg|1.0.0" = "pkg|1.0.0" :=
  ⟨rfl, rfl, rfl,
    C1_pkg_info_equals_wheel_metadata
      (fun m _ => .ok ((m.name.getD "?") ++ "|" ++ (m.version.getD "?")))
      ({ name := some "pkg", version := some "1.0.0", dynamic := none, licenseFiles := LicenseFilesField.absent, rest := () } : ProjectMetadata Unit)
      ["root"] ⟨none⟩ (fun _ => ReadResult.oserror) "pkg" rfl "pkg|1.0.0" "pkg|1.0.0" rfl rfl⟩

/-! ## Lemmas about the sdist manifest dedup loop -/

/-- Processing an appended candidate list processes the halves in
sequence, threading the seen set. -/
theorem addEntries_append (l1 l2 : List (String × List String)) (seen : List String) :
    addEntries (l1 ++ l2) seen
      = ((addEntries l1 seen).1 ++ (addEntries l2 (addEntries l1 seen).2).1,
         (addEntries l2 (addEntries l1 seen).2).2) := by
  induction l1 generalizing seen with
  | nil => simp [addEntries]
  | cons c rest ih =>
    obtain ⟨a, p⟩ := c
    simp only [List.cons_append, addEntries]
    by_cases hm : seen.contains a = true
    · simp only [hm, if_true]
      exact ih seen
    · simp at hm
      simp [hm, ih (a :: seen)]

/-- The include loop is the dedup of the concatenated candidate stream of
its rules. -/
theorem sdistLoop_eq_addEntries (fs : FS) (excl : List String) (nm : String)
    (pats : List String) (seen : List String) :
    sdistLoop fs excl nm pats seen
      = addEntries (pats.flatMap (ruleCandidates fs excl nm)) seen := by
  induction pats generalizing seen with
  | nil => simp [sdistLoop, addEntries]
  | cons p ps ih =>
    simp only [sdistLoop, List.flatMap_cons]
    rw [addEntries_append, ih]

/-- An archive path is in the final seen set exactly when it was already
seen or is the archive path of some candidate. -/
theorem addEntries_mem_seen (l : List (String × List String)) (seen : List String)
    (a : String) :
    a ∈ (addEntries l seen).2 ↔ a ∈ seen ∨ a ∈ l.map Prod.fst := by
  induction l generalizing seen with
  | nil => simp [addEntries]
  | cons c rest ih =>
    obtain ⟨b, p⟩ := c
    simp only [addEntries]
    by_cases hm : seen.contains b = true
    · rw [if_pos hm]
      rw [ih seen]
      simp only [List.map_cons, List.mem_cons]
      constructor
      · rintro (h | h)
        · exact Or.inl h
        · exact Or.inr (Or.inr h)
      · rintro (h | h | h)
        · exact Or.inl h
        · subst h
          exact Or.inl (by simpa using hm)
        · exact Or.inr h
    · rw [if_neg hm]
      simp only []
      rw [ih (b :: seen)]
      simp only [List.mem_cons, List.map_cons]
      tauto

/-- Every added entry is one of the candidates. -/
theorem addEntries_sub (l : List (String × List String)) (seen : List String)
    (e : String × List String) (he : e ∈ (addEntries l seen).1) : e ∈ l := by
  induction l generalizing seen with
  | nil => simp [addEntries] at he
  | cons c rest ih =>
    obtain ⟨b, p⟩ := c
    simp only [addEntries] at he
    by_cases hm : seen.contains b = true
    · rw [if_pos hm] at he
      exact List.mem_cons_of_mem _ (ih seen he)
    · rw [if_neg hm] at he
      simp only [List.mem_cons] at he
      rcases he with he | he
      · subst he
        exact List.mem_cons_self _ _
      · exact List.mem_cons_of_mem _ (ih (b :: seen) he)

/-- The added entries have pairwise distinct archive paths, none of them
already seen. -/
theorem addEntries_nodup (l : List (String × List String)) (seen : List String) :
    ((addEntries l seen).1.map Prod.fst).Nodup
    ∧ ∀ a ∈ (addEntries l seen).1.map Prod.fst, a ∉ seen := by
  induction l generalizing seen with
  | nil => simp [addEntries]
  | cons c rest ih =>
    obtain ⟨b, p⟩ := c
    simp only [addEntries]
    by_cases hm : seen.contains b = true
    · rw [if_pos hm]
      exact ih seen
    · rw [if_neg hm]
      obtain ⟨ihn, ihs⟩ := ih (b :: seen)
      simp only [List.map_cons, List.nodup_cons]
      refine ⟨⟨?_, ihn⟩, ?_⟩
      · intro hb
        exact ihs b hb (List.mem_cons_self b seen)
      · intro a ha
        simp only [List.mem_cons] at ha
        rcases ha with ha | ha
        · subst ha
          intro hseen
          exact hm (by simpa using hseen)
        · intro hseen
          exact ihs a ha (List.mem_cons_of_mem b hseen)

/-- Each added entry is the first candidate carrying its archive path. -/
theorem addEntries_first (l : List (String × List String)) (seen : List String)
    (e : String × List String) (he : e ∈ (addEntries l seen).1) :
    e.1 ∉ seen ∧ firstEntryFor e.1 l = some e := by
  induction l generalizing seen with
  | nil => simp [addEntries] at he
  | cons c rest ih =>
    obtain ⟨b, p⟩ := c
    simp only [addEntries] at he
    by_cases hm : seen.contains b = true
    · rw [if_pos hm] at he
      obtain ⟨hns, hfind⟩ := ih seen he
      refine ⟨hns, ?_⟩
      simp only [firstEntryFor]
      rw [if_neg ?_]
      · exact hfind
      · intro hbe
        apply hns
        rw [← hbe]
        simpa using hm
    · rw [if_neg hm] at he
      simp only [List.mem_cons] at he
      rcases he with he | he
      · subst he
        refine ⟨fun hbs => hm (by simpa using hbs), ?_⟩
        simp [firstEntryFor]
      · obtain ⟨hns, hfind⟩ := ih (b :: seen) he
        simp only [List.mem_cons] at hns
        push_neg at hns
        refine ⟨hns.2, ?_⟩
        simp only [firstEntryFor]
        rw [if_neg ?_]
        · exact hfind
        · intro hbe
          exact hns.1 hbe.symm

/-- Candidates whose archive paths are all already seen add nothing. -/
theorem addEntries_all_seen (l : List (String × List String)) (seen : List String)
    (h : ∀ a ∈ l.map Prod.fst, a ∈ seen) : addEntries l seen = ([], seen) := by
  induction l with
  | nil => rfl
  | cons c rest ih =>
    obtain ⟨b, p⟩ := c
    simp only [addEntries]
    rw [if_pos ?_]
    · exact ih fun a ha => h a (by simp [ha])
    · simpa using h b (by simp)

/-! ## Exclude rules and the include manifest (C4, C5) -/

/-- Every manifest entry is produced by some include rule. -/
theorem sdist_entry_from_rule (fs : FS) (excl : List String) (nm : String)
    (incs : List String) (e : String × List String)
    (he : e ∈ sdist_include_entries fs excl nm incs) :
    ∃ p ∈ incs, e ∈ ruleCandidates fs excl nm p := by
  simp only [sdist_include_entries] at he
  rw [sdistLoop_eq_addEntries] at he
  have h2 := addEntries_sub _ _ _ he
  rwa [List.mem_flatMap] at h2

/-- A candidate of a rule that matches an exclude rule can only come from
the literal-file branch, which performs no exclusion check. -/
theorem ruleCandidates_excluded (fs : FS) (excl : List String) (nm : String) (pat : String)
    (e : String × List String) (he : e ∈ ruleCandidates fs excl nm pat)
    (hx : should_exclude excl e.2 = true) :
    isGlobPattern pat = false ∧ splitPath pat ∈ fs.files
      ∧ e = (nm ++ "/" ++ joinPath (splitPath pat), splitPath pat) := by
  simp only [ruleCandidates] at he
  by_cases hg : isGlobPattern pat = true
  · rw [if_pos hg] at he
    rw [List.mem_filterMap] at he
    obtain ⟨q, _, hsome⟩ := he
    by_cases hf : fs.files.contains q = true
    · rw [if_pos hf] at hsome
      by_cases hex : should_exclude excl q = true
      · rw [if_pos hex] at hsome
        exact Option.noConfusion hsome
      · rw [if_neg hex] at hsome
        rw [Option.some.injEq] at hsome
        subst hsome
        exact absurd hx hex
    · rw [if_neg hf] at hsome
      exact Option.noConfusion hsome
  · rw [if_neg hg] at he
    by_cases hf : fs.files.contains (splitPath pat) = true
    · rw [if_pos hf] at he
      simp only [List.mem_singleton] at he
      subst he
      exact ⟨by simpa using hg, by simpa using hf, rfl⟩
    · rw [if_neg hf] at he
      by_cases hd : fs.dirs.contains (splitPath pat) = true
      · rw [if_pos hd] at he
        rw [List.mem_filterMap] at he
        obtain ⟨q, _, hsome⟩ := he
        by_cases hex : should_exclude excl q = true
        · rw [if_pos hex] at hsome
          exact Option.noConfusion hsome
        · rw [if_neg hex] at hsome
          rw [Option.some.injEq] at hsome
          subst hsome
          exact absurd hx hex
      · rw [if_neg hd] at he
        simp at he

/-- C4 counterexample: the claim is false as stated. The file `a.pyc`
matches the default exclude rule for compiled Python files, yet when
selected by a literal file include rule it appears in the manifest. -/
theorem C4_counterexample :
    should_exclude default_exclude ["a.pyc"] = true
    ∧ ("pkg-1.0/a.pyc", ["a.pyc"])
        ∈ sdist_include_entries
            { files := [["a.pyc"]], dirs := [], globA := fun _ => [] }
            default_exclude "pkg-1.0" (default_include ++ ["a.pyc"]) :=
  ⟨by decide, by decide⟩

/-- C4 amended: a file selected by a directory or glob include rule is
omitted when it matches any exclude rule; only a literal file include
rule can place an exclude-matching file in the manifest (the literal-file
branch performs no exclusion check). -/
theorem C4_amended_exclude_except_literal_file (fs : FS) (excl : List String) (nm : String)
    (incs : List String) (e : String × List String)
    (he : e ∈ sdist_include_entries fs excl nm incs)
    (hx : should_exclude excl e.2 = true) :
    ∃ p ∈ incs, isGlobPattern p = false ∧ splitPath p ∈ fs.files
      ∧ e = (nm ++ "/" ++ joinPath (splitPath p), splitPath p) := by
  obtain ⟨p, hp, hcand⟩ := sdist_entry_from_rule fs excl nm incs e he
  obtain ⟨h1, h2, h3⟩ := ruleCandidates_excluded fs excl nm p e hcand hx
  exact ⟨p, hp, h1, h2, h3⟩

/-- Witness for the amended C4 at the concrete counterexample input: the
excluded entry indeed traces back to a literal file include rule. -/
theorem C4_amended_exclude_except_literal_file_witness :
    ∃ p ∈ default_include ++ ["a.pyc"], isGlobPattern p = false
      ∧ splitPath p ∈ [["a.pyc"]]
      ∧ ("pkg-1.0/a.pyc", (["a.pyc"] : List String))
          = ("pkg-1.0" ++ "/" ++ joinPath (splitPath p), splitPath p) :=
  C4_amended_exclude_except_literal_file
    { files := [["a.pyc"]], dirs := [], globA := fun _ => [] }
    default_exclude "pkg-1.0" (default_include ++ ["a.pyc"])
    ("pkg-1.0/a.pyc", ["a.pyc"]) (by decide) (by decide)

/-- C5: the manifest of the include loop has pairwise distinct archive
paths; every entry is the first candidate pair computed for its archive
path in rule order; and appending one more include rule whose candidates
only carry archive paths already in the manifest leaves the manifest
unchanged. -/
theorem C5_manifest_dedup_first_wins (fs : FS) (excl : List String) (nm : String)
    (incs : List String) (r : String)
    (h : ∀ a ∈ (ruleCandidates fs excl nm r).map Prod.fst,
        a ∈ (sdist_include_entries fs excl nm incs).map Prod.fst) :
    ((sdist_include_entries fs excl nm incs).map Prod.fst).Nodup
    ∧ (∀ e ∈ sdist_include_entries fs excl nm incs,
        firstEntryFor e.1 (incs.flatMap (ruleCandidates fs excl nm)) = some e)
    ∧ sdist_include_entries fs excl nm (incs ++ [r]) = sdist_include_entries fs excl nm incs := by
  refine ⟨?_, ?_, ?_⟩
  · have hn := (addEntries_nodup (incs.flatMap (ruleCandidates fs excl nm)) []).1
    simpa [sdist_include_entries, sdistLoop_eq_addEntries] using hn
  · intro e he
    simp only [sdist_include_entries] at he
    rw [sdistLoop_eq_addEntries] at he
    exact (addEntries_first _ _ _ he).2
  · have hseen : ∀ a ∈ (ruleCandidates fs excl nm r).map Prod.fst,
        a ∈ (addEntries (incs.flatMap (ruleCandidates fs excl nm)) []).2 := by
      intro a ha
      have h2 := h a ha
      rw [List.mem_map] at h2
      obtain ⟨e, he, hea⟩ := h2
      simp only [sdist_include_entries] at he
      rw [sdistLoop_eq_addEntries] at he
      have h3 := addEntries_sub _ _ _ he
      rw [addEntries_mem_seen]
      right
      rw [List.mem_map]
      exact ⟨e, h3, hea⟩
    simp only [sdist_include_entries]
    rw [sdistLoop_eq_addEntries, sdistLoop_eq_addEntries, List.flatMap_append,
      addEntries_append]
    simp only [List.flatMap_cons, List.flatMap_nil, List.append_nil]
    rw [addEntries_all_seen (ruleCandidates fs excl nm r)
      (addEntries (incs.flatMap (ruleCandidates fs excl nm)) []).2 hseen]
    simp

/-- Witness for C5 at a concrete input: with only a LICENSE file on disk,
the default rules produce a one-entry manifest with distinct archive
paths bound to first candidates, and appending the duplicate include rule
LICENSE leaves it unchanged. -/
theorem C5_manifest_dedup_first_wins_witness :
    (∀ a ∈ (ruleCandidates { files := [["LICENSE"]], dirs := [], globA := fun _ => [] }
        default_exclude "pkg-1.0" "LICENSE").map Prod.fst,
      a ∈ (sdist_include_entries { files := [["LICENSE"]], dirs := [], globA := fun _ => [] }
        default_exclude "pkg-1.0" default_include).map Prod.fst)
    ∧ ((sdist_include_entries { files := [["LICENSE"]], dirs := [], globA := fun _ => [] }
        default_exclude "pkg-1.0" default_include).map Prod.fst).Nodup
    ∧ sdist_include_entries { files := [["LICENSE"]], dirs := [], globA := fun _ => [] }
        default_exclude "pkg-1.0" (default_include ++ ["LICENSE"])
      = sdist_include_entries { files := [["LICENSE"]], dirs := [], globA := fun _ => [] }
        default_exclude "pkg-1.0" default_include :=
  ⟨by decide,
    (C5_manifest_dedup_first_wins { files := [["LICENSE"]], dirs := [], globA := fun _ => [] }
      default_exclude "pkg-1.0" default_include "LICENSE" (by decide)).1,
    (C5_manifest_dedup_first_wins { files := [["LICENSE"]], dirs := [], globA := fun _ => [] }
      default_exclude "pkg-1.0" default_include "LICENSE" (by decide)).2.2⟩

/-! ## License patterns that match nothing (C3) -/

/-- C3: spec-modelled expansion. When version resolution succeeds, the
declared pattern list contains at least one pattern that expands to zero
files, and every pattern is root-relative without a parent-directory
segment (so the failure is the no-match error, not the invalid-pattern
one), metadata generation fails with the no-matching-license-files
resolver error and build_sdist raises before the archive file is created:
no archive appears in the output directory. The non-emptiness of the
pattern list follows from the existence of the zero-match pattern. -/
theorem C3_no_match_fails_before_archive {α : Type} (coreText : String)
    (expand : String → List (List String)) (md0 : ProjectMetadata α)
    (root : List String) (tool : ToolConfig) (pfs : PyFS) (fs : FS)
    (ci ce : List String) (v : String) (md1 : ProjectMetadata α)
    (hres : _resolve_version md0 root tool pfs = .ok (v, md1))
    (hvalid : ∀ p ∈ _get_license_files_patterns md0.licenseFiles,
        specRootRelative p = true ∧ specHasParentSeg p = false)
    (hzero : ∃ p ∈ _get_license_files_patterns md0.licenseFiles, expand p = []) :
    build_sdist_model (specRenderCoreMetadata coreText expand) md0 root tool pfs fs ci ce
      = SdistOutcome.errBefore noMatchResolverMsg := by
  have hmd1 : md1 = { md0 with version := some v } :=
    _resolve_version_ok_shape md0 root tool pfs v md1 hres
  have hlf : md1.licenseFiles = md0.licenseFiles := by rw [hmd1]
  have h1 : (_get_license_files_patterns md0.licenseFiles).any
      (fun p => !(specRootRelative p) || specHasParentSeg p) = false := by
    by_contra hno
    rw [Bool.not_eq_false, List.any_eq_true] at hno
    obtain ⟨p, hp, hbad⟩ := hno
    obtain ⟨ha, hb⟩ := hvalid p hp
    simp [ha, hb] at hbad
  have h2 : (_get_license_files_patterns md0.licenseFiles).any
      (fun p => (expand p).isEmpty) = true := by
    obtain ⟨p, hp, hz⟩ := hzero
    rw [List.any_eq_true]
    exact ⟨p, hp, by simp [hz]⟩
  have hproj : ∀ m : ProjectMetadata α, m.licenseFiles = md0.licenseFiles →
      specRenderCoreMetadata coreText expand m root = .error noMatchResolverMsg := by
    intro m hm
    simp only [specRenderCoreMetadata, specLicenseResolver, hm]
    rw [if_neg (by simp [h1]), if_pos h2]
  have hrender : _get_core_metadata_rfc822 (specRenderCoreMetadata coreText expand)
      { md1 with name := some (md1.name.getD "unknown"), version := some v } root
      = .error noMatchResolverMsg := by
    simp only [_get_core_metadata_rfc822]
    rcases hdyn : md1.dynamic with _ | l
    · simp only []
      exact hproj _ (by simp [hlf])
    · simp only []
      split
      · exact hproj _ (by simp [hlf])
      · exact hproj _ (by simp [hlf])
  simp only [build_sdist_model]
  rw [hres]
  simp only []
  rw [hrender]

/-- Witness for C3 at a concrete input, the end-to-end scenario of a
single pattern matching nothing: build_sdist fails with the
no-matching-license-files resolver error before any archive exists. -/
theorem C3_no_match_fails_before_archive_witness :
    build_sdist_model (specRenderCoreMetadata "Name: pkg\n" (fun _ => []))
        ({ name := some "pkg", version := some "1.0", dynamic := none, licenseFiles := LicenseFilesField.list [TomlVal.str "nonexistent.txt"], rest := () } : ProjectMetadata Unit)
        ["root"] ⟨none⟩ (fun _ => ReadResult.oserror)
        { files := [], dirs := [], globA := fun _ => [] } [] []
      = SdistOutcome.errBefore noMatchResolverMsg :=
  C3_no_match_fails_before_archive "Name: pkg\n" (fun _ => [])
    ({ name := some "pkg", version := some "1.0", dynamic := none, licenseFiles := LicenseFilesField.list [TomlVal.str "nonexistent.txt"], rest := () } : ProjectMetadata Unit)
    ["root"] ⟨none⟩ (fun _ => ReadResult.oserror)
    { files := [], dirs := [], globA := fun _ => [] } [] [] "1.0"
    ({ name := some "pkg", version := some "1.0", dynamic := none, licenseFiles := LicenseFilesField.list [TomlVal.str "nonexistent.txt"], rest := () } : ProjectMetadata Unit)
    rfl (by decide) ⟨"nonexistent.txt", by decide, rfl⟩
